import Mathlib

/-!
Verification development for the HID USB relay dashboard
(`src/Final/src/hid_relay_modern_gui.py`).

The control core is shallowly embedded: the external relay executable is an
opaque world function `List String → ProcResult` mapping a spawned command
line to the outcome of that process invocation, and every controller / GUI
operation is a pure Lean function translated line by line from the Python
source.  Python strings are modelled as Lean `String`s, with the Python
`str.split(sep)` / `str.strip()` primitives reproduced exactly (including
their treatment of empty tokens) on `List Char`.
-/

/-! ## Python string primitives -/

/-- Characters treated as whitespace by Python's `str.strip()`:
space, tab, newline, carriage return, vertical tab, form feed. -/
def isPySpace (c : Char) : Bool :=
  c = ' ' || c = '\t' || c = '\n' || c = '\r' || c = Char.ofNat 11 || c = Char.ofNat 12

/-- Python `s.strip()` on the character list: drop leading and trailing
whitespace. -/
def pyStripList (l : List Char) : List Char :=
  ((l.dropWhile isPySpace).reverse.dropWhile isPySpace).reverse

/-- Python `s.strip()`. -/
def pyStrip (s : String) : String :=
  String.mk (pyStripList s.data)

/-- Python `s.split(sep)` with an explicit one-character separator:
splits at every occurrence of `sep`, keeping empty pieces, and always
returns a non-empty list (`"".split(sep) == [""]`). -/
def splitChar (sep : Char) : List Char → List (List Char)
  | [] => [[]]
  | c :: cs =>
    let rest := splitChar sep cs
    if c = sep then [] :: rest
    else
      match rest with
      | [] => [[c]]
      | r :: rs => (c :: r) :: rs

/-! ## External process model -/

/-- Outcome of spawning the external relay executable once.
`finished d code out err` is a process that ran for `d` time units and
exited with `code`, writing `out`/`err`; `notFound` is Python's
`FileNotFoundError`; `spawnFault` is any other exception raised by
`subprocess.run`. -/
inductive ProcResult where
  | notFound
  | spawnFault
  | finished (duration : Nat) (returncode : Int) (stdout : String) (stderr : String)
deriving DecidableEq

/-- The fixed per-invocation timeout passed to `subprocess.run` (`timeout=10`). -/
def timeoutBound : Nat := 10

/-- A process outcome that `run_command` maps to its uniform failure result:
executable not found, another spawn fault, a run exceeding the timeout
bound, or a non-zero exit status. -/
def isFailure : ProcResult → Bool
  | .notFound => true
  | .spawnFault => true
  | .finished d code _ _ => decide (timeoutBound < d) || decide (code ≠ 0)

/-- Translation of `HIDRelayController.run_command`: spawn `command`, wait at most
`timeoutBound`; on exit status 0 return the stripped standard output,
on any failure (not found, timeout, non-zero exit, other fault) return
`none`.  Totality of this function is the embedding of the source's
`try/except` blanket: no exception escapes the call. -/
def run_command (exec : List String → ProcResult) (command : List String) :
    Option String :=
  match exec command with
  | .notFound => none
  | .spawnFault => none
  | .finished d code out _ =>
    if timeoutBound < d then none
    else if code = 0 then some (pyStrip out)
    else none

/-! ## HIDRelayController -/

/-- The controller state relevant to command construction: the resolved
executable path and the optional device identifier. -/
structure HIDRelayController where
  relay_executable : String
  device_id : Option String
deriving DecidableEq

/-- Translation of `HIDRelayController.enumerate_devices`: run `<exe> ENUM`. -/
def enumerate_devices (exec : List String → ProcResult)
    (c : HIDRelayController) : Option String :=
  run_command exec [c.relay_executable, "ENUM"]

/-- The parse step of `get_device_state` applied to a truthy output string:
`output.split(':')[-1].strip().split(' ')`. -/
def parse_status (output : String) : List String :=
  (splitChar ' ' (pyStripList ((splitChar ':' output.data).getLastD []))).map
    fun l => String.mk l

/-- Translation of `HIDRelayController.get_device_state`: run `<exe> [id=<id>] STATUS`;
if the output is truthy (not `None` and not empty), take the substring
after the last `':'`, strip it and split it on single spaces; otherwise
return `none`. -/
def get_device_state (exec : List String → ProcResult)
    (c : HIDRelayController) : Option (List String) :=
  let output :=
    match c.device_id with
    | some id => run_command exec [c.relay_executable, "id=" ++ id, "STATUS"]
    | none => run_command exec [c.relay_executable, "STATUS"]
  match output with
  | none => none
  | some s => if s = "" then none else some (parse_status s)

/-- Translation of `HIDRelayController.set_relay_state`: run `<exe> [id=<id>] <state>
<relay_number>` and report whether the invocation produced a result. -/
def set_relay_state (exec : List String → ProcResult)
    (c : HIDRelayController) (relay_number state : String) : Bool :=
  let result :=
    match c.device_id with
    | some id =>
      run_command exec [c.relay_executable, "id=" ++ id, state, relay_number]
    | none => run_command exec [c.relay_executable, state, relay_number]
  result.isSome

/-- Translation of `HIDRelayController.set_all_relays`: run `<exe> [id=<id>] <state> ALL`. -/
def set_all_relays (exec : List String → ProcResult)
    (c : HIDRelayController) (state : String) : Bool :=
  let result :=
    match c.device_id with
    | some id => run_command exec [c.relay_executable, "id=" ++ id, state, "ALL"]
    | none => run_command exec [c.relay_executable, state, "ALL"]
  result.isSome

/-- Translation of `HIDRelayController.detect_relay_count`: `len(states) if states else 0`,
where an empty token list is falsy just like `None`. -/
def detect_relay_count (exec : List String → ProcResult)
    (c : HIDRelayController) : Nat :=
  match get_device_state exec c with
  | none => 0
  | some states => if states = [] then 0 else states.length

/-- The token parse step of `update_status_loop`:
`state_str.split('=')[-1] == "ON"`. -/
def parse_token (t : String) : Bool :=
  decide (((splitChar '=' t.data).getLastD []) = "ON".data)

/-- A controller resolved to the bare executable name with no device id. -/
def ctrl0 : HIDRelayController :=
  { relay_executable := "hidusb-relay-cmd", device_id := none }

/-! ## Executable locator -/

/-- The filesystem and process environment the locator consults:
`sys._MEIPASS` when running under PyInstaller, the directory of the
script, the current working directory, the existence predicate of the
filesystem and `platform.system().lower()`. -/
structure Env where
  meipass : Option String
  scriptDir : String
  cwd : String
  fileExists : String → Bool
  system : String

/-- Model of `os.path.join` of a directory and a file name. -/
def joinPath (dir name : String) : String :=
  dir ++ "/" ++ name

/-- The platform-specific executable file name chosen by
`get_relay_executable`. -/
def exe_name (system : String) : String :=
  if system = "windows" then "hidusb-relay-cmd.exe" else "hidusb-relay-cmd"

/-- Translation of `get_resource_path`: join the PyInstaller `_MEIPASS` directory, or the
absolute current directory when `_MEIPASS` is absent, with the relative
path. -/
def get_resource_path (e : Env) (relative_path : String) : String :=
  joinPath (e.meipass.getD e.cwd) relative_path

/-- Translation of `HIDRelayController.get_relay_executable`: try the bundled resource
path first; otherwise scan script directory, working directory and the
bare name, returning the first path that exists, or the bare name when
none does. -/
def get_relay_executable (e : Env) : String :=
  let name := exe_name e.system
  let bundled_path := get_resource_path e name
  if e.fileExists bundled_path then bundled_path
  else
    let search_paths := [joinPath e.scriptDir name, joinPath e.cwd name, name]
    match search_paths.find? e.fileExists with
    | some exe_path => exe_path
    | none => name

/-- The four candidate locations in the priority order of the source:
bundled resource path, script directory, current working directory,
bare executable name. -/
def locator_candidates (e : Env) : List String :=
  [get_resource_path e (exe_name e.system),
   joinPath e.scriptDir (exe_name e.system),
   joinPath e.cwd (exe_name e.system),
   exe_name e.system]

/-- Modelled from the spec's words for the refinement claim C3: return the
first candidate that exists on disk, in the fixed priority order, or the
bare executable name when no candidate exists. -/
def locator_spec (e : Env) : String :=
  ((locator_candidates e).find? e.fileExists).getD (exe_name e.system)

/-! ## GUI session state -/

/-- Read a key from a Python dict modelled as an insertion-ordered
association list. -/
def dictGet : List (Nat × Bool) → Nat → Option Bool
  | [], _ => none
  | (k, v) :: rest, i => if i = k then some v else dictGet rest i

/-- Python `i in dict`. -/
def hasKey (d : List (Nat × Bool)) (i : Nat) : Bool :=
  (dictGet d i).isSome

/-- Python `dict[k] = v`: overwrite in place when the key is present
(insertion order kept), append otherwise. -/
def dictSet (d : List (Nat × Bool)) (k : Nat) (v : Bool) : List (Nat × Bool) :=
  if hasKey d k then d.map fun kv => if kv.1 = k then (k, v) else kv
  else d ++ [(k, v)]

/-- The key list of the dict. -/
def keyList (d : List (Nat × Bool)) : List Nat :=
  d.map Prod.fst

/-- The `ModernHIDRelayGUI` fields the control flow reads and writes:
the relay-state dict, the connection flag, the polling flag and the
detected channel count. -/
structure GUIState where
  relay_states : List (Nat × Bool)
  is_connected : Bool
  status_update_running : Bool
  relay_count : Nat
deriving DecidableEq

/-- The GUI state right after `__init__`. -/
def initialGUIState : GUIState :=
  { relay_states := [], is_connected := false,
    status_update_running := false, relay_count := 0 }

/-- The outcome of the detection thread: either `on_device_detected` with
the channel count it left in `relay_count`, or `on_detection_failed`. -/
inductive DetectOutcome where
  | detected (relay_count : Nat)
  | failed
deriving DecidableEq

/-- Translation of `ModernHIDRelayGUI.detect_device` (the body of `detection_thread`):
enumerate devices; on truthy output detect the relay count, defaulting to
4 channels when the count is 0, and report detection success; on falsy
enumeration output report failure. -/
def detect_device (exec : List String → ProcResult)
    (c : HIDRelayController) : DetectOutcome :=
  match enumerate_devices exec c with
  | none => .failed
  | some devices_info =>
    if devices_info = "" then .failed
    else
      let relay_count := detect_relay_count exec c
      if 0 < relay_count then .detected relay_count
      else .detected 4

/-- The `for i in range(1, relay_count + 1): relay_states[i] = b` loops of
`connect`, `turn_all_on` and `turn_all_off`. -/
def setRange (init : List (Nat × Bool)) (n : Nat) (b : Bool) :
    List (Nat × Bool) :=
  (List.range n).foldl (fun d i => dictSet d (i + 1) b) init

/-- Translation of `ModernHIDRelayGUI.connect`: refuse when no channel count was detected;
otherwise write `false` into keys `1..relay_count` of the existing dict,
set the connected flag and start the polling loop. -/
def connect (g : GUIState) : GUIState :=
  if g.relay_count = 0 then g
  else
    { g with relay_states := setRange g.relay_states g.relay_count false,
             is_connected := true, status_update_running := true }

/-- Translation of `ModernHIDRelayGUI.disconnect`: clear the two flags; the relay-state
dict is left as it is (only the widget cards are destroyed). -/
def disconnect (g : GUIState) : GUIState :=
  { g with status_update_running := false, is_connected := false }

/-- Translation of `ModernHIDRelayGUI.toggle_relay`: when connected, read the current
state (default `False`), ask the controller for the opposite state, and
flip the dict entry only when the controller call succeeded. -/
def toggle_relay (exec : List String → ProcResult) (c : HIDRelayController)
    (g : GUIState) (relay_num : Nat) : GUIState :=
  if g.is_connected then
    let current_state := (dictGet g.relay_states relay_num).getD false
    let new_state := if current_state then "OFF" else "ON"
    if set_relay_state exec c (toString relay_num) new_state then
      { g with relay_states := dictSet g.relay_states relay_num (!current_state) }
    else g
  else g

/-- Translation of `ModernHIDRelayGUI.turn_all_on`: on controller success write `true`
into keys `1..relay_count`; otherwise leave the dict alone. -/
def turn_all_on (exec : List String → ProcResult) (c : HIDRelayController)
    (g : GUIState) : GUIState :=
  if set_all_relays exec c "ON" then
    { g with relay_states := setRange g.relay_states g.relay_count true }
  else g

/-- Translation of `ModernHIDRelayGUI.turn_all_off`: on controller success write `false`
into keys `1..relay_count`; otherwise leave the dict alone. -/
def turn_all_off (exec : List String → ProcResult) (c : HIDRelayController)
    (g : GUIState) : GUIState :=
  if set_all_relays exec c "OFF" then
    { g with relay_states := setRange g.relay_states g.relay_count false }
  else g

/-- One step of the inner `for i, state_str in enumerate(states, start=1)`
body of `update_status_loop`: write the parsed state only when key `i`
is present and currently differs. -/
def poll_apply (d : List (Nat × Bool)) (i : Nat) (is_on : Bool) :
    List (Nat × Bool) :=
  match dictGet d i with
  | some v => if v = is_on then d else dictSet d i is_on
  | none => d

/-- The whole `for` loop of `update_status_loop`, with `i` the index of the
next token (Python's `enumerate(states, start=1)`). -/
def poll_tokens (d : List (Nat × Bool)) (i : Nat) :
    List String → List (Nat × Bool)
  | [] => d
  | t :: ts => poll_tokens (poll_apply d i (parse_token t)) (i + 1) ts

/-- One iteration of `update_status_loop`: when connected and the status
query returned a truthy (non-`None`, non-empty) token list, fold the
tokens over the relay-state dict. -/
def poll_step (g : GUIState) (states : Option (List String)) : GUIState :=
  if g.is_connected then
    match states with
    | some toks =>
      if toks = [] then g
      else { g with relay_states := poll_tokens g.relay_states 1 toks }
    | none => g
  else g

/-! ## Dict lemmas -/

theorem dictGet_append (d1 d2 : List (Nat × Bool)) (i : Nat) :
    dictGet (d1 ++ d2) i =
      match dictGet d1 i with
      | some v => some v
      | none => dictGet d2 i := by
  induction d1 with
  | nil => simp [dictGet]
  | cons kv rest ih =>
    obtain ⟨k, v⟩ := kv
    by_cases h : i = k <;> simp [dictGet, h, ih]

theorem dictGet_overwrite_self (d : List (Nat × Bool)) (k : Nat) (v : Bool) :
    dictGet (d.map fun kv => if kv.1 = k then (k, v) else kv) k =
      (dictGet d k).map fun _ => v := by
  induction d with
  | nil => simp [dictGet]
  | cons kv rest ih =>
    obtain ⟨a, b⟩ := kv
    rw [List.map_cons]
    dsimp only
    by_cases h : a = k
    · subst h
      rw [if_pos rfl]
      simp [dictGet, ih]
    · rw [if_neg h]
      have h2 : ¬ k = a := fun hh => h hh.symm
      simp [dictGet, h2, ih]

theorem dictGet_overwrite_other (d : List (Nat × Bool)) (k : Nat) (v : Bool)
    (j : Nat) (hj : j ≠ k) :
    dictGet (d.map fun kv => if kv.1 = k then (k, v) else kv) j =
      dictGet d j := by
  induction d with
  | nil => simp [dictGet]
  | cons kv rest ih =>
    obtain ⟨a, b⟩ := kv
    rw [List.map_cons]
    dsimp only
    by_cases h : a = k
    · subst h
      rw [if_pos rfl]
      simp [dictGet, hj, ih]
    · rw [if_neg h]
      by_cases h2 : j = a <;> simp [dictGet, h2, ih]

theorem dictGet_dictSet_self (d : List (Nat × Bool)) (k : Nat) (v : Bool) :
    dictGet (dictSet d k v) k = some v := by
  unfold dictSet
  by_cases h : hasKey d k = true
  · rw [if_pos h, dictGet_overwrite_self]
    unfold hasKey at h
    cases hget : dictGet d k with
    | none => rw [hget] at h; simp [Option.isSome] at h
    | some w => simp
  · rw [if_neg h, dictGet_append]
    unfold hasKey at h
    cases hget : dictGet d k with
    | none => simp [dictGet]
    | some w => rw [hget] at h; simp [Option.isSome] at h

theorem dictGet_dictSet_other (d : List (Nat × Bool)) (k : Nat) (v : Bool)
    (j : Nat) (hj : j ≠ k) :
    dictGet (dictSet d k v) j = dictGet d j := by
  unfold dictSet
  by_cases h : hasKey d k = true
  · rw [if_pos h, dictGet_overwrite_other _ _ _ _ hj]
  · rw [if_neg h, dictGet_append]
    cases hget : dictGet d j with
    | none => simp [dictGet, hj]
    | some w => simp

theorem keyList_overwrite (d : List (Nat × Bool)) (k : Nat) (v : Bool) :
    keyList (d.map fun kv => if kv.1 = k then (k, v) else kv) = keyList d := by
  induction d with
  | nil => rfl
  | cons kv rest ih =>
    obtain ⟨a, b⟩ := kv
    unfold keyList at ih ⊢
    rw [List.map_cons]
    dsimp only
    by_cases h : a = k
    · subst h
      rw [if_pos rfl, List.map_cons, ih]
      rfl
    · rw [if_neg h, List.map_cons, ih]
      rfl

theorem keyList_dictSet_of_hasKey (d : List (Nat × Bool)) (k : Nat) (v : Bool)
    (h : hasKey d k = true) :
    keyList (dictSet d k v) = keyList d := by
  unfold dictSet
  rw [if_pos h]
  exact keyList_overwrite d k v

theorem hasKey_dictSet_of_hasKey (d : List (Nat × Bool)) (k : Nat) (v : Bool)
    (j : Nat) (h : hasKey d j = true) :
    hasKey (dictSet d k v) j = true := by
  unfold hasKey at h ⊢
  by_cases hj : j = k
  · subst hj; rw [dictGet_dictSet_self]; simp
  · rw [dictGet_dictSet_other _ _ _ _ hj]; exact h

theorem hasKey_dictSet_eq (d : List (Nat × Bool)) (k : Nat) (v : Bool)
    (j : Nat) (hk : hasKey d k = true) :
    hasKey (dictSet d k v) j = hasKey d j := by
  by_cases hj : j = k
  · subst hj
    unfold hasKey
    rw [dictGet_dictSet_self]
    unfold hasKey at hk
    simp [hk]
  · unfold hasKey
    rw [dictGet_dictSet_other _ _ _ _ hj]

/-! ## setRange lemmas -/

theorem setRange_succ (init : List (Nat × Bool)) (n : Nat) (b : Bool) :
    setRange init (n + 1) b = dictSet (setRange init n b) (n + 1) b := by
  unfold setRange
  rw [List.range_succ, List.foldl_append]
  rfl

theorem dictGet_setRange_mem (init : List (Nat × Bool)) (b : Bool) :
    ∀ n i, 1 ≤ i → i ≤ n → dictGet (setRange init n b) i = some b := by
  intro n
  induction n with
  | zero => intro i h1 h2; omega
  | succ n ih =>
    intro i h1 h2
    rw [setRange_succ]
    by_cases hi : i = n + 1
    · subst hi; exact dictGet_dictSet_self ..
    · rw [dictGet_dictSet_other _ _ _ _ hi]
      exact ih i h1 (by omega)

theorem dictGet_setRange_outside (init : List (Nat × Bool)) (b : Bool) :
    ∀ n j, (j = 0 ∨ n < j) → dictGet (setRange init n b) j = dictGet init j := by
  intro n
  induction n with
  | zero => intro j _; rfl
  | succ n ih =>
    intro j hj
    have hne : j ≠ n + 1 := by rcases hj with h | h <;> omega
    rw [setRange_succ, dictGet_dictSet_other _ _ _ _ hne]
    exact ih j (by rcases hj with h | h <;> omega)

theorem dictGet_rangeMap_none (b : Bool) :
    ∀ n j, n < j →
      dictGet ((List.range n).map fun i => (i + 1, b)) j = none := by
  intro n
  induction n with
  | zero => intro j _; rfl
  | succ n ih =>
    intro j hj
    rw [List.range_succ, List.map_append, dictGet_append, ih j (by omega)]
    have hne : j ≠ n + 1 := by omega
    simp [dictGet, hne]

theorem setRange_nil (b : Bool) :
    ∀ n, setRange [] n b = (List.range n).map fun i => (i + 1, b) := by
  intro n
  induction n with
  | zero => rfl
  | succ n ih =>
    rw [setRange_succ, ih, List.range_succ, List.map_append]
    unfold dictSet
    rw [if_neg ?hkey]
    case hkey =>
      unfold hasKey
      rw [dictGet_rangeMap_none b n (n + 1) (by omega)]
      simp
    rfl

/-! ## Polling-loop lemmas -/

theorem keyList_poll_apply (d : List (Nat × Bool)) (i : Nat) (is_on : Bool) :
    keyList (poll_apply d i is_on) = keyList d := by
  unfold poll_apply
  cases h : dictGet d i with
  | none => rfl
  | some v =>
    dsimp only
    by_cases hv : v = is_on
    · rw [if_pos hv]
    · rw [if_neg hv]
      apply keyList_dictSet_of_hasKey
      unfold hasKey
      rw [h]
      rfl

theorem hasKey_poll_apply (d : List (Nat × Bool)) (i : Nat) (is_on : Bool)
    (j : Nat) : hasKey (poll_apply d i is_on) j = hasKey d j := by
  unfold poll_apply
  cases h : dictGet d i with
  | none => rfl
  | some v =>
    dsimp only
    by_cases hv : v = is_on
    · rw [if_pos hv]
    · rw [if_neg hv]
      apply hasKey_dictSet_eq
      unfold hasKey
      rw [h]
      rfl

theorem keyList_poll_tokens (toks : List String) :
    ∀ d i, keyList (poll_tokens d i toks) = keyList d := by
  induction toks with
  | nil => intro d i; rfl
  | cons t ts ih =>
    intro d i
    show keyList (poll_tokens (poll_apply d i (parse_token t)) (i + 1) ts)
        = keyList d
    rw [ih, keyList_poll_apply]

theorem hasKey_poll_tokens (toks : List String) :
    ∀ d i j, hasKey (poll_tokens d i toks) j = hasKey d j := by
  induction toks with
  | nil => intro d i j; rfl
  | cons t ts ih =>
    intro d i j
    show hasKey (poll_tokens (poll_apply d i (parse_token t)) (i + 1) ts) j
        = hasKey d j
    rw [ih, hasKey_poll_apply]

theorem poll_tokens_no_keys (toks : List String) :
    ∀ d i, (∀ k, hasKey d k = true → k < i) → poll_tokens d i toks = d := by
  induction toks with
  | nil => intro d i _; rfl
  | cons t ts ih =>
    intro d i h
    have hnone : dictGet d i = none := by
      cases hd : dictGet d i with
      | none => rfl
      | some v =>
        exfalso
        have hk : hasKey d i = true := by unfold hasKey; rw [hd]; rfl
        exact absurd (h i hk) (by omega)
    show poll_tokens (poll_apply d i (parse_token t)) (i + 1) ts = d
    unfold poll_apply
    rw [hnone]
    exact ih d (i + 1) fun k hk => by have := h k hk; omega

theorem poll_tokens_append (xs ys : List String) :
    ∀ d i, poll_tokens d i (xs ++ ys)
      = poll_tokens (poll_tokens d i xs) (i + xs.length) ys := by
  induction xs with
  | nil => intro d i; rfl
  | cons x xs ih =>
    intro d i
    show poll_tokens (poll_apply d i (parse_token x)) (i + 1) (xs ++ ys)
      = poll_tokens (poll_tokens (poll_apply d i (parse_token x)) (i + 1) xs)
          (i + (xs.length + 1)) ys
    rw [ih]
    congr 1
    omega

theorem poll_tokens_take (d : List (Nat × Bool)) (n : Nat) (toks : List String)
    (h : ∀ k, hasKey d k = true → k ≤ n) :
    poll_tokens d 1 toks = poll_tokens d 1 (toks.take n) := by
  by_cases hlen : toks.length ≤ n
  · rw [List.take_of_length_le hlen]
  · conv_lhs => rw [← List.take_append_drop n toks]
    rw [poll_tokens_append]
    apply poll_tokens_no_keys
    intro k hk
    rw [hasKey_poll_tokens] at hk
    have h1 := h k hk
    have h2 : (toks.take n).length = n := by
      rw [List.length_take]
      omega
    omega

/-! ## splitChar and strip lemmas -/

theorem splitChar_no_sep (sep : Char) :
    ∀ l : List Char, (∀ c ∈ l, c ≠ sep) → splitChar sep l = [l] := by
  intro l
  induction l with
  | nil => intro _; rfl
  | cons c cs ih =>
    intro h
    have hc : c ≠ sep := h c (by simp)
    have hcs : splitChar sep cs = [cs] := ih fun x hx => h x (by simp [hx])
    show (let rest := splitChar sep cs;
      if c = sep then [] :: rest
      else match rest with
        | [] => [[c]]
        | r :: rs => (c :: r) :: rs) = [c :: cs]
    rw [hcs]
    rw [if_neg hc]

theorem splitChar_append_sep (sep : Char) (ys : List Char) :
    ∀ xs : List Char, (∀ c ∈ xs, c ≠ sep) →
      splitChar sep (xs ++ sep :: ys) = xs :: splitChar sep ys := by
  intro xs
  induction xs with
  | nil =>
    intro _
    show (let rest := splitChar sep ys;
      if sep = sep then [] :: rest
      else match rest with
        | [] => [[sep]]
        | r :: rs => (sep :: r) :: rs) = [] :: splitChar sep ys
    rw [if_pos rfl]
  | cons x xs ih =>
    intro h
    have hx : x ≠ sep := h x (by simp)
    have hrest := ih fun c hc => h c (by simp [hc])
    show (let rest := splitChar sep (xs ++ sep :: ys);
      if x = sep then [] :: rest
      else match rest with
        | [] => [[x]]
        | r :: rs => (x :: r) :: rs) = (x :: xs) :: splitChar sep ys
    rw [hrest, if_neg hx]

theorem dropWhile_cons_false {p : Char → Bool} {a : Char} {l : List Char}
    (h : p a = false) : List.dropWhile p (a :: l) = a :: l := by
  simp [List.dropWhile_cons, h]

theorem dropWhile_all_true {p : Char → Bool} :
    ∀ l : List Char, (∀ c ∈ l, p c = true) → List.dropWhile p l = [] := by
  intro l
  induction l with
  | nil => intro _; rfl
  | cons c cs ih =>
    intro h
    rw [List.dropWhile_cons, h c (by simp)]
    exact ih fun x hx => h x (by simp [hx])

theorem pyStripList_all_space (l : List Char)
    (h : ∀ c ∈ l, isPySpace c = true) : pyStripList l = [] := by
  unfold pyStripList
  rw [dropWhile_all_true l h]
  rfl

theorem pyStripList_id (a : Char) (l : List Char) (ha : isPySpace a = false)
    (hl : ∀ c, (a :: l).getLast? = some c → isPySpace c = false) :
    pyStripList (a :: l) = a :: l := by
  unfold pyStripList
  rw [dropWhile_cons_false ha]
  obtain ⟨c, rest, hrev⟩ : ∃ c rest, (a :: l).reverse = c :: rest := by
    cases hr : (a :: l).reverse with
    | nil =>
      exfalso
      have := congrArg List.length hr
      simp at this
    | cons c rest => exact ⟨c, rest, rfl⟩
  have hc : isPySpace c = false := by
    apply hl
    rw [← List.head?_reverse, hrev]
    rfl
  rw [hrev, dropWhile_cons_false hc, ← hrev, List.reverse_reverse]


theorem getLast?_append_ne_nil (l1 l2 : List Char) (h : l2 ≠ []) :
    (l1 ++ l2).getLast? = l2.getLast? := by
  rw [List.getLast?_append]
  cases hc : l2.getLast? with
  | none => exact absurd (List.getLast?_eq_none_iff.mp hc) h
  | some c => rfl

theorem pyStripList_cons_space (l : List Char) :
    pyStripList (' ' :: l) = pyStripList l := by
  unfold pyStripList
  rw [List.dropWhile_cons]
  rw [if_pos (by decide)]

/-- Helper for the status-parse theorems: on a successful zero-exit
invocation whose output is `"Device status: "` followed by a colon-free
body with a non-space head and a non-space last character,
`get_device_state` returns exactly the single-space split of the body. -/
theorem get_device_state_concrete (a : Char) (rest : List Char)
    (ha : isPySpace a = false) (hcolon : ∀ c ∈ a :: rest, c ≠ ':')
    (hlast : ∀ c, (a :: rest).getLast? = some c → isPySpace c = false) :
    get_device_state
      (fun _ => ProcResult.finished 0 0
        (String.mk ("Device status: ".data ++ a :: rest)) "") ctrl0
      = some ((splitChar ' ' (a :: rest)).map fun l => String.mk l) := by
  have hsplitData : "Device status: ".data ++ a :: rest
      = 'D' :: ("evice status: ".data ++ a :: rest) := rfl
  have hlastFull : ∀ c,
      ('D' :: ("evice status: ".data ++ a :: rest)).getLast? = some c →
        isPySpace c = false := by
    intro c hc
    apply hlast c
    rw [show ('D' :: ("evice status: ".data ++ a :: rest))
        = ("Device status: ".data ++ a :: rest) from rfl,
      getLast?_append_ne_nil _ _ (by simp)] at hc
    exact hc
  have hstrip : pyStripList ("Device status: ".data ++ a :: rest)
      = "Device status: ".data ++ a :: rest := by
    rw [hsplitData]
    exact pyStripList_id 'D' _ (by decide) hlastFull
  have houtput : pyStrip (String.mk ("Device status: ".data ++ a :: rest))
      = String.mk ("Device status: ".data ++ a :: rest) := by
    unfold pyStrip
    rw [show (String.mk ("Device status: ".data ++ a :: rest)).data
        = "Device status: ".data ++ a :: rest from rfl, hstrip]
  have hne : String.mk ("Device status: ".data ++ a :: rest) ≠ "" := by
    intro hcontra
    have h2 := congrArg String.data hcontra
    rw [show (String.mk ("Device status: ".data ++ a :: rest)).data
        = 'D' :: ("evice status: ".data ++ a :: rest) from rfl,
      show ("" : String).data = [] from rfl] at h2
    exact List.noConfusion h2
  unfold get_device_state
  show (match
      run_command
        (fun _ => ProcResult.finished 0 0
          (String.mk ("Device status: ".data ++ a :: rest)) "")
        [ctrl0.relay_executable, "STATUS"] with
    | none => none
    | some s => if s = "" then none else some (parse_status s)) = _
  unfold run_command
  dsimp only
  rw [if_neg (by decide), if_pos rfl, houtput]
  dsimp only
  rw [if_neg hne]
  unfold parse_status
  have hdata : (String.mk ("Device status: ".data ++ a :: rest)).data
      = "Device status".data ++ ':' :: (' ' :: a :: rest) := rfl
  rw [hdata]
  rw [splitChar_append_sep ':' (' ' :: a :: rest) "Device status".data
    (by decide)]
  rw [splitChar_no_sep ':' (' ' :: a :: rest) ?hnocolon]
  case hnocolon =>
    intro c hc
    rcases List.mem_cons.mp hc with hcs | hcs
    · subst hcs; decide
    · exact hcolon c hcs
  rw [show (["Device status".data, ' ' :: a :: rest] : List (List Char)).getLastD []
      = ' ' :: a :: rest from rfl]
  rw [pyStripList_cons_space, pyStripList_id a rest ha hlast]

/-! ## Claims -/

/-- C1: for the exact input line `"Device status: 1=OFF 2=ON 3=OFF 4=OFF"`
returned by a successful status invocation, `get_device_state` returns the
token sequence `["1=OFF","2=ON","3=OFF","4=OFF"]`, and parsing those tokens
with the substring-after-`=` comparison against `"ON"` yields
`[false, true, false, false]`. -/
theorem C1_status_tokens :
    get_device_state
        (fun _ => ProcResult.finished 0 0 "Device status: 1=OFF 2=ON 3=OFF 4=OFF" "")
        ctrl0 = some ["1=OFF", "2=ON", "3=OFF", "4=OFF"] ∧
    ["1=OFF", "2=ON", "3=OFF", "4=OFF"].map parse_token
      = [false, true, false, false] := by decide

/-- C2: when every external invocation fails — executable not found, a run
exceeding the 10-unit timeout bound, a non-zero exit, or any other spawn
fault — the string/sequence operations return `none` and the set operations
return `false`; being total Lean functions, none of them propagates an
exception past the Client boundary. -/
theorem C2_uniform_failure (exec : List String → ProcResult)
    (c : HIDRelayController) (h : ∀ cmd, isFailure (exec cmd) = true) :
    enumerate_devices exec c = none ∧
    get_device_state exec c = none ∧
    (∀ relay_number state, set_relay_state exec c relay_number state = false) ∧
    (∀ state, set_all_relays exec c state = false) := by
  have hrun : ∀ cmd, run_command exec cmd = none := by
    intro cmd
    have hf := h cmd
    unfold isFailure at hf
    unfold run_command
    cases hx : exec cmd with
    | notFound => rfl
    | spawnFault => rfl
    | finished d code out err =>
      rw [hx] at hf
      dsimp only
      simp only [Bool.or_eq_true, decide_eq_true_eq] at hf
      rcases hf with hd | hc
      · rw [if_pos hd]
      · by_cases hdd : timeoutBound < d
        · rw [if_pos hdd]
        · rw [if_neg hdd, if_neg hc]
  refine ⟨?_, ?_, ?_, ?_⟩
  · unfold enumerate_devices
    exact hrun _
  · unfold get_device_state
    cases c.device_id <;> simp [hrun]
  · intro relay_number state
    unfold set_relay_state
    cases c.device_id <;> simp [hrun]
  · intro state
    unfold set_all_relays
    cases c.device_id <;> simp [hrun]

theorem C2_uniform_failure_witness :
    enumerate_devices (fun _ => ProcResult.notFound) ctrl0 = none ∧
    get_device_state (fun _ => ProcResult.notFound) ctrl0 = none ∧
    set_relay_state (fun _ => ProcResult.notFound) ctrl0 "1" "ON" = false ∧
    set_all_relays (fun _ => ProcResult.notFound) ctrl0 "ON" = false := by
  have h := C2_uniform_failure (fun _ => ProcResult.notFound) ctrl0 fun _ => rfl
  exact ⟨h.1, h.2.1, h.2.2.1 "1" "ON", h.2.2.2 "ON"⟩

/-- C3: the locator equals its specification — scan the candidates in the
fixed priority order (bundled resource path, script directory, working
directory, bare name) and return the first that exists, falling back to
the bare name; in particular the bundled path wins whenever it exists
(regardless of any same-name file elsewhere), and when no candidate exists
the bare name is returned with no error raised. -/
theorem C3_locator_priority (e : Env) :
    get_relay_executable e = locator_spec e ∧
    (e.fileExists (get_resource_path e (exe_name e.system)) = true →
      get_relay_executable e = get_resource_path e (exe_name e.system)) ∧
    ((∀ p ∈ locator_candidates e, e.fileExists p = false) →
      get_relay_executable e = exe_name e.system) := by
  have hmain : get_relay_executable e = locator_spec e := by
    unfold get_relay_executable locator_spec locator_candidates
    dsimp only
    by_cases hb : e.fileExists (get_resource_path e (exe_name e.system)) = true
    · rw [if_pos hb, List.find?_cons_of_pos _ hb]
      rfl
    · rw [if_neg hb, List.find?_cons_of_neg _ hb]
      cases hf : List.find? e.fileExists
          [joinPath e.scriptDir (exe_name e.system),
           joinPath e.cwd (exe_name e.system), exe_name e.system] with
      | none => rfl
      | some p => rfl
  refine ⟨hmain, ?_, ?_⟩
  · intro h
    rw [hmain]
    unfold locator_spec locator_candidates
    rw [List.find?_cons_of_pos _ h]
    rfl
  · intro h
    rw [hmain]
    unfold locator_spec
    rw [List.find?_eq_none.mpr fun p hp => by simp [h p hp]]
    rfl

/-- A filesystem where the executable exists both at the bundled resource
path and in the current working directory. -/
def env_both : Env :=
  { meipass := some "bundle", scriptDir := "script", cwd := "cwd",
    fileExists := fun p =>
      p = "bundle/hidusb-relay-cmd" || p = "cwd/hidusb-relay-cmd",
    system := "linux" }

/-- A filesystem where no candidate exists. -/
def env_empty : Env :=
  { meipass := some "bundle", scriptDir := "script", cwd := "cwd",
    fileExists := fun _ => false, system := "linux" }

theorem C3_locator_priority_witness :
    env_both.fileExists "cwd/hidusb-relay-cmd" = true ∧
    get_relay_executable env_both = "bundle/hidusb-relay-cmd" ∧
    get_relay_executable env_empty = "hidusb-relay-cmd" := by
  refine ⟨by decide, ?_, ?_⟩
  · have h := (C3_locator_priority env_both).2.1 (by decide)
    rw [h]
    decide
  · have h := (C3_locator_priority env_empty).2.2 (by decide)
    rw [h]
    decide

/-- A world where enumeration answers with device text but every status
query fails: enumeration is non-empty while the detected channel count
is zero. -/
def exec_enum_only : List String → ProcResult := fun cmd =>
  if cmd.contains "ENUM" then ProcResult.finished 0 0 "HID device found" ""
  else ProcResult.notFound

/-- C4 counterexample: with a non-empty enumeration result and a zero
detected channel count, the session does NOT return to Idle with a
detection-failed signal — it transitions to Detected with the silent
default of 4 channels. -/
theorem C4_detect_counterexample :
    enumerate_devices exec_enum_only ctrl0 = some "HID device found" ∧
    detect_relay_count exec_enum_only ctrl0 = 0 ∧
    detect_device exec_enum_only ctrl0 ≠ DetectOutcome.failed ∧
    detect_device exec_enum_only ctrl0 = DetectOutcome.detected 4 := by decide

/-- C4 (amended): `Detecting` issues `enumerate()` then
`detectChannelCount()`; it reports detection failure exactly when the
enumeration result is absent or empty, and otherwise transitions to
Detected — with the detected channel count when it is non-zero, and with
a default of 4 channels when the detected count is zero. -/
theorem C4_detect_amended (exec : List String → ProcResult)
    (c : HIDRelayController) :
    ((enumerate_devices exec c = none ∨ enumerate_devices exec c = some "") →
      detect_device exec c = DetectOutcome.failed) ∧
    (∀ s, enumerate_devices exec c = some s → s ≠ "" →
      detect_device exec c = DetectOutcome.detected
        (if detect_relay_count exec c = 0 then 4
         else detect_relay_count exec c)) ∧
    (detect_device exec c = DetectOutcome.failed →
      enumerate_devices exec c = none ∨ enumerate_devices exec c = some "") := by
  refine ⟨?_, ?_, ?_⟩
  · intro h
    unfold detect_device
    rcases h with h | h <;> rw [h]
    dsimp only
    rw [if_pos rfl]
  · intro s hs hne
    unfold detect_device
    rw [hs]
    dsimp only
    rw [if_neg hne]
    by_cases hcnt : 0 < detect_relay_count exec c
    · rw [if_pos hcnt, if_neg (by omega)]
    · rw [if_neg hcnt, if_pos (by omega)]
  · intro h
    unfold detect_device at h
    cases he : enumerate_devices exec c with
    | none => exact Or.inl rfl
    | some s =>
      rw [he] at h
      dsimp only at h
      by_cases hs : s = ""
      · subst hs; exact Or.inr rfl
      · rw [if_neg hs] at h
        exfalso
        by_cases hcnt : 0 < detect_relay_count exec c
        · rw [if_pos hcnt] at h; exact DetectOutcome.noConfusion h
        · rw [if_neg hcnt] at h; exact DetectOutcome.noConfusion h

theorem C4_detect_amended_witness :
    detect_device exec_enum_only ctrl0 = DetectOutcome.detected 4 ∧
    detect_device (fun _ => ProcResult.notFound) ctrl0
      = DetectOutcome.failed := by
  constructor
  · have h := (C4_detect_amended exec_enum_only ctrl0).2.1
      "HID device found" (by decide) (by decide)
    rw [h]
    decide
  · exact (C4_detect_amended (fun _ => ProcResult.notFound) ctrl0).1
      (Or.inl (by decide))

/-- A world where every invocation succeeds with a short message. -/
def exec_ok : List String → ProcResult :=
  fun _ => ProcResult.finished 0 0 "OK" ""

/-- First session: connect with 4 detected channels. -/
def g_session1 : GUIState := connect { initialGUIState with relay_count := 4 }

/-- All four relays switched on during the first session. -/
def g_session2 : GUIState := turn_all_on exec_ok ctrl0 g_session1

/-- Disconnect, then a new detection reports 2 channels. -/
def g_session3 : GUIState := { disconnect g_session2 with relay_count := 2 }

/-- C5 counterexample: reconnecting after a 4-channel session with a newly
detected count of 2 leaves a relay-state vector with 4 entries, two of
which are still `true` — not "exactly N entries, every entry false". -/
theorem C5_connect_counterexample :
    g_session3.relay_count = 2 ∧
    (connect g_session3).relay_states
      = [(1, false), (2, false), (3, true), (4, true)] ∧
    (connect g_session3).relay_states.length ≠ 2 := by decide

/-- C5 (amended): after `connect` with detected count `N`, every index
`1..N` is present and maps to `false`; when the state vector was empty
before connecting (a first connection) it has exactly the entries
`(1, false) .. (N, false)`; but entries at indices outside `1..N` left
over from an earlier session persist unchanged, so after a reconnect with
a smaller count the vector may hold stale extra entries. -/
theorem C5_connect_amended (g : GUIState) :
    (g.relay_states = [] →
      (connect g).relay_states
        = (List.range g.relay_count).map fun i => (i + 1, false)) ∧
    (∀ i, 1 ≤ i → i ≤ g.relay_count →
      dictGet (connect g).relay_states i = some false) ∧
    (∀ j, (j = 0 ∨ g.relay_count < j) →
      dictGet (connect g).relay_states j = dictGet g.relay_states j) := by
  unfold connect
  by_cases hc : g.relay_count = 0
  · rw [if_pos hc]
    refine ⟨?_, ?_, ?_⟩
    · intro h
      rw [h, hc]
      rfl
    · intro i h1 h2
      omega
    · intro j _
      rfl
  · rw [if_neg hc]
    dsimp only
    refine ⟨?_, ?_, ?_⟩
    · intro h
      rw [h, setRange_nil]
    · intro i h1 h2
      exact dictGet_setRange_mem g.relay_states false g.relay_count i h1 h2
    · intro j hj
      exact dictGet_setRange_outside g.relay_states false g.relay_count j hj

theorem C5_connect_amended_witness :
    (connect { initialGUIState with relay_count := 3 }).relay_states
        = [(1, false), (2, false), (3, false)] ∧
    dictGet (connect g_session3).relay_states 1 = some false ∧
    dictGet (connect g_session3).relay_states 4
      = dictGet g_session3.relay_states 4 := by
  refine ⟨?_, ?_, ?_⟩
  · have h := (C5_connect_amended { initialGUIState with relay_count := 3 }).1 rfl
    rw [h]
    decide
  · exact (C5_connect_amended g_session3).2.1 1 (by decide) (by decide)
  · exact (C5_connect_amended g_session3).2.2 4 (Or.inr (by decide))

/-- C6: `detect_relay_count` returns 0 whenever `get_device_state` returns
`none` (whatever the failure cause), and the token-list length when it
returns a token list. -/
theorem C6_detect_count (exec : List String → ProcResult)
    (c : HIDRelayController) :
    (get_device_state exec c = none → detect_relay_count exec c = 0) ∧
    (∀ states, get_device_state exec c = some states →
      detect_relay_count exec c = states.length) := by
  unfold detect_relay_count
  constructor
  · intro h
    rw [h]
  · intro states h
    rw [h]
    dsimp only
    by_cases hs : states = []
    · rw [if_pos hs, hs]
      rfl
    · rw [if_neg hs]

theorem C6_detect_count_witness :
    detect_relay_count (fun _ => ProcResult.spawnFault) ctrl0 = 0 ∧
    detect_relay_count
      (fun _ => ProcResult.finished 0 0 "Device status: 1=ON 2=OFF" "")
      ctrl0 = 2 := by
  constructor
  · exact (C6_detect_count (fun _ => ProcResult.spawnFault) ctrl0).1 (by decide)
  · have h := (C6_detect_count
      (fun _ => ProcResult.finished 0 0 "Device status: 1=ON 2=OFF" "") ctrl0).2
      ["1=ON", "2=OFF"] (by decide)
    rw [h]
    rfl

/-- C7 counterexample: `get_device_state` splits on single space
characters, not on whitespace runs — two tokens separated by two spaces
come back as three tokens with an empty token between them, and a tab
does not separate tokens at all. -/
theorem C7_split_counterexample :
    get_device_state
        (fun _ => ProcResult.finished 0 0 "Device status: 1=ON  2=OFF" "")
        ctrl0 = some ["1=ON", "", "2=OFF"] ∧
    get_device_state
        (fun _ => ProcResult.finished 0 0 "Device status: 1=ON\t2=OFF" "")
        ctrl0 = some ["1=ON\t2=OFF"] := by decide

theorem splitChar_cons_sep (sep : Char) (l : List Char) :
    splitChar sep (sep :: l) = [] :: splitChar sep l := by
  show (let rest := splitChar sep l;
    if sep = sep then [] :: rest
    else match rest with
      | [] => [[sep]]
      | r :: rs => (sep :: r) :: rs) = [] :: splitChar sep l
  rw [if_pos rfl]

/-- C7 (amended): for a successful status invocation, `get_device_state`
takes the substring after the last colon, strips it, and splits it on
single space characters — not on whitespace runs: two tokens separated by
exactly one space come back as those two tokens, a second consecutive
space inserts an empty token between them, and a tab does not separate
tokens at all. -/
theorem C7_split_amended (t1 t2 : List Char) (h1 : t1 ≠ []) (h2 : t2 ≠ [])
    (g1 : ∀ c ∈ t1, isPySpace c = false ∧ c ≠ ':')
    (g2 : ∀ c ∈ t2, isPySpace c = false ∧ c ≠ ':') :
    get_device_state
        (fun _ => ProcResult.finished 0 0
          (String.mk ("Device status: ".data ++ (t1 ++ ' ' :: t2))) "") ctrl0
      = some [String.mk t1, String.mk t2] ∧
    get_device_state
        (fun _ => ProcResult.finished 0 0
          (String.mk ("Device status: ".data ++ (t1 ++ ' ' :: ' ' :: t2))) "")
        ctrl0
      = some [String.mk t1, "", String.mk t2] ∧
    get_device_state
        (fun _ => ProcResult.finished 0 0
          (String.mk ("Device status: ".data ++ (t1 ++ '\t' :: t2))) "") ctrl0
      = some [String.mk (t1 ++ '\t' :: t2)] := by
  rcases t1 with _ | ⟨a, t1'⟩
  · exact absurd rfl h1
  have ha : isPySpace a = false := (g1 a (by simp)).1
  have hlastg : ∀ (zs : List Char) c,
      (zs ++ t2).getLast? = some c → isPySpace c = false := by
    intro zs c hc
    rw [getLast?_append_ne_nil _ _ h2] at hc
    exact (g2 c (List.mem_of_mem_getLast? (Option.mem_def.mpr hc))).1
  have hs1 : ∀ c ∈ a :: t1', c ≠ ' ' := by
    intro c hc hceq
    subst hceq
    exact absurd ((g1 ' ' hc).1) (by decide)
  have hs2 : ∀ c ∈ t2, c ≠ ' ' := by
    intro c hc hceq
    subst hceq
    exact absurd ((g2 ' ' hc).1) (by decide)
  refine ⟨?_, ?_, ?_⟩
  · have hcol : ∀ c ∈ a :: (t1' ++ ' ' :: t2), c ≠ ':' := by
      intro c hc
      simp only [List.mem_cons, List.mem_append] at hc
      rcases hc with hc | hc | hc | hc
      · rw [hc]; exact (g1 a (by simp)).2
      · exact (g1 c (by simp [hc])).2
      · subst hc; decide
      · exact (g2 c hc).2
    have hl : ∀ c, (a :: (t1' ++ ' ' :: t2)).getLast? = some c →
        isPySpace c = false := by
      intro c hc
      apply hlastg (a :: t1' ++ [' ']) c
      rw [show (a :: t1' ++ [' ']) ++ t2 = a :: (t1' ++ ' ' :: t2) from by simp]
      exact hc
    have e1 := get_device_state_concrete a (t1' ++ ' ' :: t2) ha hcol hl
    refine e1.trans ?_
    rw [← List.cons_append, splitChar_append_sep ' ' t2 (a :: t1') hs1,
      splitChar_no_sep ' ' t2 hs2]
    rfl
  · have hcol : ∀ c ∈ a :: (t1' ++ ' ' :: ' ' :: t2), c ≠ ':' := by
      intro c hc
      simp only [List.mem_cons, List.mem_append] at hc
      rcases hc with hc | hc | hc | hc | hc
      · rw [hc]; exact (g1 a (by simp)).2
      · exact (g1 c (by simp [hc])).2
      · subst hc; decide
      · subst hc; decide
      · exact (g2 c hc).2
    have hl : ∀ c, (a :: (t1' ++ ' ' :: ' ' :: t2)).getLast? = some c →
        isPySpace c = false := by
      intro c hc
      apply hlastg (a :: t1' ++ [' ', ' ']) c
      rw [show (a :: t1' ++ [' ', ' ']) ++ t2 = a :: (t1' ++ ' ' :: ' ' :: t2)
        from by simp]
      exact hc
    have e2 := get_device_state_concrete a (t1' ++ ' ' :: ' ' :: t2) ha hcol hl
    refine e2.trans ?_
    rw [← List.cons_append, splitChar_append_sep ' ' (' ' :: t2) (a :: t1') hs1,
      splitChar_cons_sep ' ' t2, splitChar_no_sep ' ' t2 hs2]
    rfl
  · have hcol : ∀ c ∈ a :: (t1' ++ '\t' :: t2), c ≠ ':' := by
      intro c hc
      simp only [List.mem_cons, List.mem_append] at hc
      rcases hc with hc | hc | hc | hc
      · rw [hc]; exact (g1 a (by simp)).2
      · exact (g1 c (by simp [hc])).2
      · subst hc; decide
      · exact (g2 c hc).2
    have hl : ∀ c, (a :: (t1' ++ '\t' :: t2)).getLast? = some c →
        isPySpace c = false := by
      intro c hc
      apply hlastg (a :: t1' ++ ['\t']) c
      rw [show (a :: t1' ++ ['\t']) ++ t2 = a :: (t1' ++ '\t' :: t2) from by simp]
      exact hc
    have hnospace : ∀ c ∈ a :: (t1' ++ '\t' :: t2), c ≠ ' ' := by
      intro c hc
      simp only [List.mem_cons, List.mem_append] at hc
      rcases hc with hc | hc | hc | hc
      · rw [hc]; exact hs1 a (by simp)
      · exact hs1 c (by simp [hc])
      · subst hc; decide
      · exact hs2 c hc
    have e3 := get_device_state_concrete a (t1' ++ '\t' :: t2) ha hcol hl
    refine e3.trans ?_
    rw [splitChar_no_sep ' ' _ hnospace]
    rfl

theorem C7_split_amended_witness :
    get_device_state
        (fun _ => ProcResult.finished 0 0
          (String.mk ("Device status: ".data
            ++ ("1=ON".data ++ ' ' :: ' ' :: "2=OFF".data))) "") ctrl0
      = some [String.mk "1=ON".data, "", String.mk "2=OFF".data] :=
  (C7_split_amended "1=ON".data "2=OFF".data (by decide) (by decide)
    (by decide) (by decide)).2.1

/-- C8: when a set operation fails — `toggle_relay` via a failing
`set_relay_state`, or `turn_all_on` / `turn_all_off` via a failing
`set_all_relays` — the in-memory relay-state dict is left completely
unchanged. -/
theorem C8_failed_set_unchanged (exec : List String → ProcResult)
    (c : HIDRelayController) (g : GUIState) (relay_num : Nat) :
    ((∀ state, set_relay_state exec c (toString relay_num) state = false) →
      (toggle_relay exec c g relay_num).relay_states = g.relay_states) ∧
    (set_all_relays exec c "ON" = false →
      (turn_all_on exec c g).relay_states = g.relay_states) ∧
    (set_all_relays exec c "OFF" = false →
      (turn_all_off exec c g).relay_states = g.relay_states) := by
  refine ⟨?_, ?_, ?_⟩
  · intro h
    unfold toggle_relay
    by_cases hc : g.is_connected = true
    · rw [if_pos hc]
      dsimp only
      rw [h, if_neg (by simp)]
    · rw [if_neg hc]
  · intro h
    unfold turn_all_on
    rw [h, if_neg (by simp)]
  · intro h
    unfold turn_all_off
    rw [h, if_neg (by simp)]

/-- A connected two-channel session with relay 1 on. -/
def g_connected : GUIState :=
  { relay_states := [(1, true), (2, false)], is_connected := true,
    status_update_running := true, relay_count := 2 }

theorem C8_failed_set_unchanged_witness :
    (toggle_relay (fun _ => ProcResult.notFound) ctrl0 g_connected 1).relay_states
      = [(1, true), (2, false)] ∧
    (turn_all_on (fun _ => ProcResult.notFound) ctrl0 g_connected).relay_states
      = [(1, true), (2, false)] ∧
    (turn_all_off (fun _ => ProcResult.notFound) ctrl0 g_connected).relay_states
      = [(1, true), (2, false)] := by
  have h := C8_failed_set_unchanged (fun _ => ProcResult.notFound) ctrl0
    g_connected 1
  exact ⟨h.1 fun _ => rfl, h.2.1 rfl, h.2.2 rfl⟩

/-- C9: an invocation that exits with status 0 but writes only whitespace
to standard output is a success at the `run_command` layer — it returns
`some ""`, not `none` — yet `get_device_state` treats the empty trimmed
string as falsy and returns the absence value, and `detect_device`
treats the empty trimmed enumeration result as a detection failure. -/
theorem C9_whitespace_output (c : HIDRelayController) (ws : String)
    (h : ∀ ch ∈ ws.data, isPySpace ch = true) :
    (∀ cmd, run_command (fun _ => ProcResult.finished 0 0 ws "") cmd
      = some "") ∧
    get_device_state (fun _ => ProcResult.finished 0 0 ws "") c = none ∧
    detect_device (fun _ => ProcResult.finished 0 0 ws "") c
      = DetectOutcome.failed := by
  have hstrip : pyStrip ws = "" := by
    unfold pyStrip
    rw [pyStripList_all_space ws.data h]
  have hrun : ∀ cmd, run_command (fun _ => ProcResult.finished 0 0 ws "") cmd
      = some "" := by
    intro cmd
    unfold run_command
    dsimp only
    rw [if_neg (by decide), if_pos rfl, hstrip]
  refine ⟨hrun, ?_, ?_⟩
  · unfold get_device_state
    cases c.device_id <;> simp [hrun]
  · unfold detect_device enumerate_devices
    rw [hrun]
    dsimp only
    rw [if_pos rfl]

theorem C9_whitespace_output_witness :
    run_command (fun _ => ProcResult.finished 0 0 " \t " "")
        ["hidusb-relay-cmd", "STATUS"] = some "" ∧
    get_device_state (fun _ => ProcResult.finished 0 0 " \t " "") ctrl0
      = none ∧
    detect_device (fun _ => ProcResult.finished 0 0 " \t " "") ctrl0
      = DetectOutcome.failed := by
  have h := C9_whitespace_output ctrl0 " \t " (by decide)
  exact ⟨h.1 ["hidusb-relay-cmd", "STATUS"], h.2.1, h.2.2⟩

/-- C10: one polling iteration never adds or removes channels — the key
list of the relay-state dict is invariant under `poll_step` — and when
every key is at most `n`, tokens past position `n` are ignored: polling
with the full token list equals polling with only the first `n` tokens. -/
theorem C10_poll_keys_invariant (g : GUIState) (states : Option (List String))
    (n : Nat) (h : ∀ k, hasKey g.relay_states k = true → k ≤ n) :
    keyList (poll_step g states).relay_states = keyList g.relay_states ∧
    (∀ toks, states = some toks →
      (poll_step g states).relay_states
        = (poll_step g (some (toks.take n))).relay_states) := by
  constructor
  · unfold poll_step
    by_cases hc : g.is_connected = true
    · rw [if_pos hc]
      cases states with
      | none => rfl
      | some toks =>
        dsimp only
        by_cases ht : toks = []
        · rw [if_pos ht]
        · rw [if_neg ht]
          exact keyList_poll_tokens toks g.relay_states 1
    · rw [if_neg hc]
  · intro toks hst
    subst hst
    unfold poll_step
    by_cases hc : g.is_connected = true
    · rw [if_pos hc, if_pos hc]
      dsimp only
      by_cases ht : toks = []
      · rw [if_pos ht, if_pos (by rw [ht]; simp)]
      · rw [if_neg ht]
        by_cases htk : toks.take n = []
        · rw [if_pos htk]
          dsimp only
          rw [poll_tokens_take g.relay_states n toks h, htk]
          rfl
        · rw [if_neg htk]
          dsimp only
          rw [poll_tokens_take g.relay_states n toks h]
    · rw [if_neg hc, if_neg hc]

/-- A connected two-channel session being polled. -/
def g_polling : GUIState :=
  { relay_states := [(1, false), (2, true)], is_connected := true,
    status_update_running := true, relay_count := 2 }

theorem C10_poll_keys_invariant_witness :
    keyList (poll_step g_polling
        (some ["1=ON", "2=OFF", "3=ON", "4=ON"])).relay_states = [1, 2] ∧
    (poll_step g_polling
        (some ["1=ON", "2=OFF", "3=ON", "4=ON"])).relay_states
      = (poll_step g_polling
        (some (["1=ON", "2=OFF", "3=ON", "4=ON"].take 2))).relay_states := by
  have hkeys : ∀ k, hasKey g_polling.relay_states k = true → k ≤ 2 := by
    intro k hk
    by_cases h1 : k = 1
    · omega
    by_cases h2 : k = 2
    · omega
    exfalso
    simp [g_polling, hasKey, dictGet, h1, h2] at hk
  have h := C10_poll_keys_invariant g_polling
    (some ["1=ON", "2=OFF", "3=ON", "4=ON"]) 2 hkeys
  constructor
  · rw [h.1]
    decide
  · exact h.2 ["1=ON", "2=OFF", "3=ON", "4=ON"] rfl
